import Mathlib

/-!
Verification of the anitya data-access layer (`anitya/lib/model.py`).

Queries are shallowly embedded as Lean lists: a SQLAlchemy query over a
table is a `List` of rows, `filter` is `List.filter`, `order_by` is a
stable sort (`List.insertionSort`), `offset`/`limit` are `drop`/`take`,
`distinct`/`union` use `List.dedup`/append, and `count` is `List.length`.
Python's truthiness tests on optional strings are made explicit.
-/

namespace Anitya

/-- Python truthiness of an optional string: `None` and `""` are falsy. -/
def pyTruthy : Option String → Bool
  | none => false
  | some s => !s.toList.isEmpty

/-- The numeric value of a list of decimal digit characters. -/
def digitsVal (l : List Char) : Nat :=
  l.foldl (fun a c => 10 * a + (c.toNat - '0'.toNat)) 0

/-- A non-empty all-digit character list, as a number. -/
def digitsToNat (l : List Char) : Option Nat :=
  if !l.isEmpty && l.all Char.isDigit then some (digitsVal l) else none

/-- Python `int(s)` on a string: an optional sign followed by digits
(whitespace stripping is not modelled); returns `none` where Python
raises `ValueError`. -/
def pyInt (s : String) : Option Int :=
  match s.toList with
  | '-' :: rest => (digitsToNat rest).map (fun n => -(n : Int))
  | '+' :: rest => (digitsToNat rest).map (fun n => (n : Int))
  | l => (digitsToNat l).map (fun n => (n : Int))

/-- One token of a SQL `LIKE` pattern: the any-sequence wildcard `%`,
the single-character wildcard `_`, or a literal character. -/
inductive LikeTok where
  | percent
  | underscore
  | lit (c : Char)
deriving DecidableEq, Repr

/-- Tokenize a `LIKE` pattern: a backslash escapes the following
character (PostgreSQL's default escape), `%` and `_` are wildcards, and
everything else is literal. -/
def likeToks : List Char → List LikeTok
  | [] => []
  | '\\' :: c :: ps => LikeTok.lit c :: likeToks ps
  | '%' :: ps => LikeTok.percent :: likeToks ps
  | '_' :: ps => LikeTok.underscore :: likeToks ps
  | c :: ps => LikeTok.lit c :: likeToks ps

/-- `LIKE` matching over a tokenized pattern: `%` matches any character
sequence (expressed through the suffixes `s.tails`), `_` matches
exactly one character, a literal matches itself. -/
def likeMatchT : List LikeTok → List Char → Bool
  | [], s => s.isEmpty
  | LikeTok.percent :: ps, s => s.tails.any (fun t => likeMatchT ps t)
  | LikeTok.underscore :: ps, s =>
    match s with
    | [] => false
    | _ :: cs => likeMatchT ps cs
  | LikeTok.lit c :: ps, s =>
    match s with
    | [] => false
    | x :: cs => x == c && likeMatchT ps cs

/-- SQL `LIKE` matching on character lists. -/
def likeMatchL (p s : List Char) : Bool :=
  likeMatchT (likeToks p) s

/-- ASCII lowercasing of a string (SQL `lower`, Python `str.lower` for
the ASCII range). -/
def lowerStr (s : String) : String :=
  String.mk (s.toList.map Char.toLower)

/-- Python `s.replace(c, r)` where the needle is the single character
`c` and the replacement the character list `r`. -/
def pyReplaceChar (s : String) (c : Char) (r : List Char) : String :=
  String.mk (s.toList.flatMap (fun x => if x = c then r else [x]))

/-- SQL `ILIKE` (case-insensitive `LIKE`): both the value and the
pattern are lowercased before matching.  `lower(col).like(lower(pat))`
in the source has the same semantics. -/
def ilike (value pattern : String) : Bool :=
  likeMatchL (lowerStr pattern).toList (lowerStr value).toList

/-- A row of the `projects` table.  Columns not consulted by any of the
operations verified here (`version_url`, `regex`, the prefix used when
stripping versions, `insecure`, the timestamps) are omitted. -/
structure Project where
  id : Nat
  name : String
  homepage : String
  backend : Option String
  ecosystem_name : Option String
  version_scheme : Option String
  latest_version : Option String
  logs : Option String
deriving DecidableEq, Repr

/-- A row of the `distros` table. -/
structure Distro where
  name : String
deriving DecidableEq, Repr

/-- A row of the `packages` table. -/
structure Packages where
  id : Nat
  distro : String
  project_id : Nat
  package_name : String
deriving DecidableEq, Repr

/-- A row of the `logs` table (`created_on` as epoch seconds). -/
structure Log where
  id : Nat
  user : String
  project : Option String
  distro : Option String
  description : String
  created_on : Nat
deriving DecidableEq, Repr

/-- A row of the `projects_flags` table (`created_on`/`updated_on` as
epoch seconds). -/
structure ProjectFlag where
  id : Nat
  project_id : Nat
  reason : String
  user : String
  state : String
  created_on : Nat
  updated_on : Nat
deriving DecidableEq, Repr

/-- Modelled from the spec: an ecosystem plugin as seen through
`EcosystemRegistry` — the plugin code is outside this layer; each
plugin exposes a `default_version_scheme`, possibly unset. -/
structure EcosystemPlugin where
  default_version_scheme : Option String
deriving DecidableEq, Repr

/-- Modelled from the spec: a backend plugin as seen through
`BackendRegistry`; its default scheme may be unset ("the project's
backend default, if the backend defines one"). -/
structure BackendPlugin where
  default_version_scheme : Option String
deriving DecidableEq, Repr

/-- Modelled from the spec: a version-comparison plugin
(`VersionComparator`); only its identity matters here. -/
structure VersionPlugin where
  name : String
deriving DecidableEq, Repr

/-- Modelled from the spec: the three external plugin registries
(`ECOSYSTEM_PLUGINS`, `BACKEND_PLUGINS`, `VERSION_PLUGINS`), each a
partial map from plugin name to plugin. -/
structure PluginRegistries where
  ecosystem : String → Option EcosystemPlugin
  backend : String → Option BackendPlugin
  version : String → Option VersionPlugin

/-- Modelled from the spec: `anitya.lib.versions.GLOBAL_DEFAULT`, the
process-wide global default version-scheme name (the `versions` module
is outside this layer). -/
def DEFAULT_VERSION_SCHEME : String := "generic"

/-- Modelled from the spec: `VERSION_PLUGINS.get_plugin(name)`, which
fails with `UnknownScheme` when `name` has no registered
implementation — the error must surface, never be swallowed. -/
def VERSION_PLUGINS_get_plugin (reg : PluginRegistries) (name : String) :
    Except String VersionPlugin :=
  match reg.version name with
  | some plugin => Except.ok plugin
  | none => Except.error ("UnknownScheme: " ++ name)

/-- `Project.get_version_class`: resolve the version scheme from the
project column, the ecosystem default, the backend default and the
global default, in that order, each step only when the name so far is
falsy; then look the resolved name up in the version registry.  An
ecosystem/backend registry miss is the Python `AttributeError` path. -/
def Project.get_version_class (reg : PluginRegistries) (p : Project) :
    Except String VersionPlugin := do
  let version_scheme := p.version_scheme
  let version_scheme ←
    if !pyTruthy version_scheme && pyTruthy p.ecosystem_name then
      match reg.ecosystem (p.ecosystem_name.getD "") with
      | some ecosystem => pure ecosystem.default_version_scheme
      | none => throw ("no ecosystem plugin: " ++ p.ecosystem_name.getD "")
    else pure version_scheme
  let version_scheme ←
    if !pyTruthy version_scheme && pyTruthy p.backend then
      match reg.backend (p.backend.getD "") with
      | some backend => pure backend.default_version_scheme
      | none => throw ("no backend plugin: " ++ p.backend.getD "")
    else pure version_scheme
  let version_scheme :=
    if !pyTruthy version_scheme then some DEFAULT_VERSION_SCHEME
    else version_scheme
  VERSION_PLUGINS_get_plugin reg (version_scheme.getD "")

/-- `ORDER BY key ASC`, as a stable sort on a key. -/
def sortByKey {α β : Type} [LinearOrder β] (key : α → β) (l : List α) : List α :=
  @List.insertionSort α (fun a b => key a ≤ key b)
    (fun a b => inferInstanceAs (Decidable (key a ≤ key b))) l

/-- `ORDER BY key DESC`, as a stable sort on a key. -/
def sortByKeyDesc {α β : Type} [LinearOrder β] (key : α → β) (l : List α) : List α :=
  @List.insertionSort α (fun a b => key b ≤ key a)
    (fun a b => inferInstanceAs (Decidable (key b ≤ key a))) l

/-- Result of a query operation whose Python counterpart returns either
`query.count()` or `query.all()` depending on a `count` flag. -/
def rows {α : Type} : Nat ⊕ List α → List α
  | Sum.inl _ => []
  | Sum.inr l => l

/-- The `Page` namedtuple returned by `BaseQuery.paginate`. -/
structure Page (α : Type) where
  items : List α
  page : Int
  items_per_page : Int
  total_items : Nat
deriving DecidableEq, Repr

/-- `BaseQuery.paginate`: default the page to 1 and the page size to
25, reject values below 1 (`ValueError`), then order the query, count
it, and slice it with `limit items_per_page` and
`offset items_per_page * (page - 1)`.  The ordering criterion is the
key `key` (the `order_by` argument). -/
def BaseQuery.paginate {α β : Type} [LinearOrder β] (query : List α) (key : α → β)
    (page items_per_page : Option Int) : Except String (Page α) :=
  let page := page.getD 1
  let items_per_page := items_per_page.getD 25
  if page < 1 then Except.error "page must be 1 or greater."
  else if items_per_page < 1 then Except.error "items_per_page must be 1 or greater."
  else
    let q := sortByKey key query
    let total_items := q.length
    let items := (q.drop (items_per_page * (page - 1)).toNat).take items_per_page.toNat
    Except.ok ⟨items, page, items_per_page, total_items⟩

/-- `_paginate_query`: a falsy or non-numeric `page` leaves the query
unsliced; an integer page applies `offset (page - 1) * 50, limit 50`
unless the integer is 0 (falsy after conversion).  A negative offset is
clamped to 0 (engines differ there; no claim depends on it). -/
def paginate_query {α : Type} (query : List α) (page : Option String) : List α :=
  let pageInt : Option Int :=
    match page with
    | none => none
    | some s => if s.toList.isEmpty then none else pyInt s
  match pageInt with
  | some p =>
    if p == 0 then query
    else (query.drop ((p - 1) * 50).toNat).take 50
  | none => query

/-- `Distro.all`: all distributions ordered by name, with the secondary
pagination and an optional count mode. -/
def Distro.all (db : List Distro) (page : Option String) (count : Bool) :
    Nat ⊕ List Distro :=
  let query := sortByKey Distro.name db
  let query := paginate_query query page
  if count then Sum.inl query.length else Sum.inr query

/-- `Distro.search`: replace `*` by `%` (no other translation), filter
with `lower(name) LIKE lower(pattern)`, order by name, `distinct`, then
the secondary pagination and optional count mode. -/
def Distro.search (db : List Distro) (pattern : String) (page : Option String)
    (count : Bool) : Nat ⊕ List Distro :=
  let pattern := if pattern.toList.contains '*' then pyReplaceChar pattern '*' ['%'] else pattern
  let query := db.filter (fun d => ilike d.name pattern)
  let query := sortByKey Distro.name query
  let query := query.dedup
  let query := paginate_query query page
  if count then Sum.inl query.length else Sum.inr query

/-- `Project.all`: all projects ordered by lowercased name, with the
secondary pagination and an optional count mode. -/
def Project.all (db : List Project) (page : Option String) (count : Bool) :
    Nat ⊕ List Project :=
  let query := sortByKey (fun p : Project => lowerStr p.name) db
  let query := paginate_query query page
  if count then Sum.inl query.length else Sum.inr query

/-- The sentinel log text meaning the last cron run succeeded. -/
def successSentinel : String := "Version retrieved correctly"

/-- The `ILIKE` pattern marking the `odd` status. -/
def oddPattern : String := "Something strange occured%"

/-- The wildcard translation used by the `name`/`log` filters of
`Project.updated`: `*` becomes `%`; a pattern without `*` is wrapped in
`%...%` (substring match). -/
def wildcardSub (s : String) : String :=
  if s.toList.contains '*' then pyReplaceChar s '*' ['%'] else "%" ++ s ++ "%"

/-- `Project.updated`: order by lowercased name, apply the status
filter, then optional name/log `ILIKE` filters, the secondary
pagination and an optional count mode.  An `ILIKE` on the nullable
`logs` column excludes NULL rows, hence the `isSome` guards. -/
def Project.updated (db : List Project) (status : String) (name log : Option String)
    (page : Option String) (count : Bool) : Nat ⊕ List Project :=
  let query := sortByKey (fun p : Project => lowerStr p.name) db
  let query :=
    if status == "updated" then
      query.filter (fun p => p.logs.isSome && p.logs == some successSentinel)
    else if status == "failed" then
      query.filter (fun p =>
        p.logs.isSome && p.logs != some successSentinel &&
          !(ilike (p.logs.getD "") oddPattern))
    else if status == "odd" then
      query.filter (fun p =>
        p.logs.isSome && p.logs != some successSentinel &&
          ilike (p.logs.getD "") oddPattern)
    else if status == "new" then
      query.filter (fun p => p.logs.isNone)
    else if status == "never_updated" then
      query.filter (fun p =>
        p.logs.isSome && p.logs != some successSentinel && p.latest_version.isNone)
    else query
  let query :=
    if pyTruthy name then
      query.filter (fun p => ilike p.name (wildcardSub (name.getD "")))
    else query
  let query :=
    if pyTruthy log then
      query.filter (fun p => p.logs.isSome && ilike (p.logs.getD "") (wildcardSub (log.getD "")))
    else query
  let query := paginate_query query page
  if count then Sum.inl query.length else Sum.inr query

/-- The pattern translation of `Project.search`: escape `_` as `\_`,
then replace `*` by `%` when a `*` is present. -/
def searchTranslate (pattern : String) : String :=
  let p1 := pyReplaceChar pattern '_' ['\\', '_']
  if p1.toList.contains '*' then pyReplaceChar p1 '*' ['%'] else p1

/-- `Project.search`: escape `_` as `\_` and replace `*` by `%` in a
truthy pattern; `query1` filters project names (exact equality when the
translated pattern has no `%`, `ILIKE` otherwise), `query2` joins the
packages table and filters package names the same way; an explicit
`distro` narrows both sides; the two queries are unioned and
deduplicated, ordered by name, then the secondary pagination and count
mode apply.  The join followed by `distinct` is modelled as an
existential over package rows. -/
def Project.search (projects : List Project) (packages : List Packages)
    (pattern : String) (distro : Option String) (page : Option String)
    (count : Bool) : Nat ⊕ List Project :=
  let pattern := if !pattern.toList.isEmpty then searchTranslate pattern else pattern
  let query1 := projects
  let query1 :=
    if !pattern.toList.isEmpty then
      if pattern.toList.contains '%' then query1.filter (fun p => ilike p.name pattern)
      else query1.filter (fun p => p.name == pattern)
    else query1
  let pkgCond : Packages → Bool := fun k =>
    if !pattern.toList.isEmpty then
      if pattern.toList.contains '%' then ilike k.package_name pattern
      else k.package_name == pattern
    else true
  let distroCond : Packages → Bool := fun k =>
    match distro with
    | some d => lowerStr k.distro == lowerStr d
    | none => true
  let query2 := projects.filter (fun p =>
    packages.any (fun k => p.id == k.project_id && pkgCond k && distroCond k))
  let query1 :=
    match distro with
    | some d => query1.filter (fun p : Project =>
        packages.any (fun k => p.id == k.project_id && lowerStr k.distro == lowerStr d))
    | none => query1
  let query := (query1.dedup ++ query2.dedup).dedup
  let query := sortByKey Project.name query
  let query := paginate_query query page
  if count then Sum.inl query.length else Sum.inr query

/-- `Log.search`: filter by project-name snapshot, creation-date lower
bound and user (one name or several), order by `created_on`
descending; `count=True` returns the row count there, before the
`offset`/`limit` slicing (each skipped when falsy). -/
def Log.search (db : List Log) (project_name : Option String) (from_date : Option Nat)
    (user : Option (String ⊕ List String)) (limit offset : Option Nat)
    (count : Bool) : Nat ⊕ List Log :=
  let query := db
  let query :=
    if pyTruthy project_name then
      query.filter (fun lg => lg.project == some (project_name.getD ""))
    else query
  let query :=
    match from_date with
    | some d => query.filter (fun lg => d ≤ lg.created_on)
    | none => query
  let query :=
    match user with
    | some (Sum.inl u) => if u.toList.isEmpty then query else query.filter (fun lg => lg.user == u)
    | some (Sum.inr us) =>
      if us.isEmpty then query else query.filter (fun lg => us.contains lg.user)
    | none => query
  let query := sortByKeyDesc Log.created_on query
  if count then Sum.inl query.length
  else
    let query :=
      match offset with
      | some o => if o == 0 then query else query.drop o
      | none => query
    let query :=
      match limit with
      | some l => if l == 0 then query else query.take l
      | none => query
    Sum.inr query

set_option linter.unusedVariables false in
/-- `ProjectFlag.all`: orders by `created_on` ascending and returns
`query.all()`; the `page` and `count` parameters are accepted but never
consulted. -/
def ProjectFlag.all (flags : List ProjectFlag) (page : Option String) (count : Bool) :
    Nat ⊕ List ProjectFlag :=
  let query := sortByKey ProjectFlag.created_on flags
  Sum.inr query

/-- `ProjectFlag.search`: filter by project name (a join with the
projects table, modelled existentially), creation-date lower bound,
user and state, order by `created_on` descending; `count=True` returns
the row count there, before the `offset`/`limit` slicing (each skipped
when falsy). -/
def ProjectFlag.search (flags : List ProjectFlag) (projects : List Project)
    (project_name : Option String) (from_date : Option Nat) (user state : Option String)
    (limit offset : Option Nat) (count : Bool) : Nat ⊕ List ProjectFlag :=
  let query := flags
  let query :=
    if pyTruthy project_name then
      query.filter (fun f =>
        projects.any (fun pr => f.project_id == pr.id && pr.name == project_name.getD ""))
    else query
  let query :=
    match from_date with
    | some d => query.filter (fun f => d ≤ f.created_on)
    | none => query
  let query :=
    if pyTruthy user then query.filter (fun f => f.user == user.getD "") else query
  let query :=
    if pyTruthy state then query.filter (fun f => f.state == state.getD "") else query
  let query := sortByKeyDesc ProjectFlag.created_on query
  if count then Sum.inl query.length
  else
    let query :=
      match offset with
      | some o => if o == 0 then query else query.drop o
      | none => query
    let query :=
      match limit with
      | some l => if l == 0 then query else query.take l
      | none => query
    Sum.inr query

/-- The value of one hexadecimal digit character (0 for anything
else). -/
def hexVal (c : Char) : Nat :=
  if '0' ≤ c && c ≤ '9' then c.toNat - '0'.toNat
  else if 'a' ≤ c && c ≤ 'f' then c.toNat - 'a'.toNat + 10
  else if 'A' ≤ c && c ≤ 'F' then c.toNat - 'A'.toNat + 10
  else 0

/-- Whether a character is a hexadecimal digit. -/
def isHexDigitChar (c : Char) : Bool :=
  ('0' ≤ c && c ≤ '9') || ('a' ≤ c && c ≤ 'f') || ('A' ≤ c && c ≤ 'F')

/-- The lowercase hexadecimal digit character for a value below 16. -/
def hexChar (d : Nat) : Char :=
  if d < 10 then Char.ofNat ('0'.toNat + d) else Char.ofNat ('a'.toNat + d - 10)

/-- The `k` least-significant hexadecimal digits of `n`, most
significant first (the digit list of `"%.0kx" % n` when `n < 16 ^ k`). -/
def toHexAux (n k : Nat) : List Char :=
  match k with
  | 0 => []
  | k + 1 => toHexAux (n / 16) k ++ [hexChar (n % 16)]

/-- `"%.32x" % n`: `n` as a 32-character zero-padded lowercase
hexadecimal string (exact for `n < 2 ^ 128`). -/
def toHex32 (n : Nat) : String :=
  String.mk (toHexAux n 32)

/-- Interpret a list of hexadecimal digit characters, most significant
first. -/
def ofHexDigits (l : List Char) : Nat :=
  l.foldl (fun acc c => 16 * acc + hexVal c) 0

/-- `uuid.UUID(s)` on a string: hyphens are stripped and exactly 32
hexadecimal digits must remain; the result is the 128-bit integer value
(`.int`).  Returns `none` where Python raises `ValueError`.  (The
`urn:`/brace stripping of the Python constructor is not exercised by
this layer and is not modelled.) -/
def uuidParse (s : String) : Option Nat :=
  let t := s.toList.filter (fun c => c ≠ '-')
  if t.length == 32 && t.all isHexDigitChar then some (ofHexDigits t) else none

/-- `str(u)` for `uuid.UUID` with value `n`: the lowercase hex digits in
the hyphenated 8-4-4-4-12 layout. -/
def uuidStr (n : Nat) : String :=
  let h := toHexAux n 32
  String.mk (h.take 8 ++ ['-'] ++ ((h.drop 8).take 4) ++ ['-'] ++
    ((h.drop 12).take 4) ++ ['-'] ++ ((h.drop 16).take 4) ++ ['-'] ++ h.drop 20)

/-- A value handed to the `GUID` bind-parameter processor: either a
`uuid.UUID` instance (carrying its 128-bit integer value) or a string
form. -/
inductive UuidValue where
  | uuid (n : Nat)
  | str (s : String)
deriving DecidableEq, Repr

/-- `str(value)` for a `UuidValue`: the hyphenated form for a
`uuid.UUID` instance, the string itself for a string. -/
def UuidValue.pyStr : UuidValue → String
  | .uuid n => uuidStr n
  | .str s => s

/-- `GUID.process_bind_param`: `None` passes through; on PostgreSQL the
value's `str` form is bound; elsewhere a string is first parsed as a
UUID and either way the 128-bit value is bound as `"%.32x"`. -/
def GUID.process_bind_param (value : Option UuidValue) (dialect : String) :
    Except String (Option String) :=
  match value with
  | none => Except.ok none
  | some v =>
    if dialect == "postgresql" then Except.ok (some v.pyStr)
    else
      match v with
      | .uuid n => Except.ok (some (toHex32 n))
      | .str s =>
        match uuidParse s with
        | some n => Except.ok (some (toHex32 n))
        | none => Except.error "ValueError"

/-- `GUID.process_result_value`: `None` passes through; otherwise the
stored string is parsed with `uuid.UUID(value)`. -/
def GUID.process_result_value (value : Option String) :
    Except String (Option Nat) :=
  match value with
  | none => Except.ok none
  | some s =>
    match uuidParse s with
    | some n => Except.ok (some n)
    | none => Except.error "ValueError"

/-- The items of a successful `paginate` call (empty on error); used to
state the page-partition property. -/
def pageItems {α : Type} : Except String (Page α) → List α
  | Except.ok pg => pg.items
  | Except.error _ => []

/-- `v` begins, case-insensitively, with `pre`. -/
def startsWithCI (v pre : String) : Prop :=
  (lowerStr pre).toList <+: (lowerStr v).toList

/-- A concrete plugin-registry fixture: one ecosystem (`pypi`, default
scheme `pep440`), one backend (`custom`, default scheme `date`), and
three registered version schemes. -/
def regFix : PluginRegistries :=
  ⟨fun n => if n == "pypi" then some ⟨some "pep440"⟩ else none,
   fun n => if n == "custom" then some ⟨some "date"⟩ else none,
   fun n =>
     if n == "pep440" || n == "date" || n == "semver" || n == DEFAULT_VERSION_SCHEME
     then some ⟨n⟩ else none⟩

theorem mem_sortByKey {α β : Type} [LinearOrder β] (key : α → β) (l : List α) (x : α) :
    x ∈ sortByKey key l ↔ x ∈ l :=
  (List.perm_insertionSort _ l).mem_iff

theorem mem_sortByKeyDesc {α β : Type} [LinearOrder β] (key : α → β) (l : List α) (x : α) :
    x ∈ sortByKeyDesc key l ↔ x ∈ l :=
  (List.perm_insertionSort _ l).mem_iff

theorem perm_sortByKey {α β : Type} [LinearOrder β] (key : α → β) (l : List α) :
    (sortByKey key l).Perm l :=
  List.perm_insertionSort _ l

theorem perm_sortByKeyDesc {α β : Type} [LinearOrder β] (key : α → β) (l : List α) :
    (sortByKeyDesc key l).Perm l :=
  List.perm_insertionSort _ l

theorem sorted_sortByKey {α β : Type} [LinearOrder β] (key : α → β) (l : List α) :
    List.Sorted (fun a b => key a ≤ key b) (sortByKey key l) := by
  haveI : IsTotal α (fun a b => key a ≤ key b) := ⟨fun a b => le_total (key a) (key b)⟩
  haveI : IsTrans α (fun a b => key a ≤ key b) :=
    ⟨fun _ _ _ hab hbc => le_trans hab hbc⟩
  exact List.sorted_insertionSort _ _

theorem sorted_sortByKeyDesc {α β : Type} [LinearOrder β] (key : α → β) (l : List α) :
    List.Sorted (fun a b => key b ≤ key a) (sortByKeyDesc key l) := by
  haveI : IsTotal α (fun a b => key b ≤ key a) := ⟨fun a b => le_total (key b) (key a)⟩
  haveI : IsTrans α (fun a b => key b ≤ key a) :=
    ⟨fun _ _ _ hab hbc => le_trans hbc hab⟩
  exact List.sorted_insertionSort _ _

/-- C5: `BaseQuery.paginate` fails exactly when the supplied page or
page size is below 1; omitted arguments default to page 1 and 25 items
per page and succeed. -/
theorem claim_C5_paginate_invalid_argument {α β : Type} [LinearOrder β]
    (xs : List α) (key : α → β) (p i : Int) :
    ((∃ e, BaseQuery.paginate xs key (some p) (some i) = Except.error e) ↔ p < 1 ∨ i < 1) ∧
    ((∃ e, BaseQuery.paginate xs key (some p) none = Except.error e) ↔ p < 1) ∧
    ((∃ e, BaseQuery.paginate xs key none (some i) = Except.error e) ↔ i < 1) ∧
    (∃ pg, BaseQuery.paginate xs key none none = Except.ok pg ∧
      pg.page = 1 ∧ pg.items_per_page = 25) := by
  unfold BaseQuery.paginate
  refine ⟨?_, ?_, ?_, ?_⟩
  · by_cases hp : p < 1
    · simp [hp]
    · by_cases hi : i < 1 <;> simp [hp, hi]
  · by_cases hp : p < 1 <;> simp [hp]
  · by_cases hi : i < 1 <;> simp [hi]
  · simp

/-- C9: with `count=True`, `Log.search` and `ProjectFlag.search` return
the count of the filtered rows; the count branch runs before the
`offset`/`limit` slicing, so those arguments never change the result. -/
theorem claim_C9_count_ignores_slicing (db : List Log) (flags : List ProjectFlag)
    (projects : List Project) (pn : Option String) (fd : Option Nat)
    (u : Option (String ⊕ List String)) (us st : Option String)
    (l1 o1 l2 o2 : Option Nat) :
    Log.search db pn fd u l1 o1 true = Log.search db pn fd u l2 o2 true ∧
    ProjectFlag.search flags projects pn fd us st l1 o1 true =
      ProjectFlag.search flags projects pn fd us st l2 o2 true :=
  ⟨rfl, rfl⟩

/-- C10: in the secondary pagination mode a page converting to the
falsy integer 0 leaves the query unsliced instead of raising, unlike
the primary `paginate`, which rejects page 0. -/
theorem claim_C10_page_zero_unsliced {α : Type} (query : List α) (s : String)
    (hs : pyInt s = some 0) :
    paginate_query query (some s) = query ∧
    paginate_query query (some "0") = query ∧
    (∃ e, BaseQuery.paginate query (fun _ => (0 : Nat)) (some 0) none =
      Except.error e) := by
  refine ⟨?_, ?_, ⟨"page must be 1 or greater.", rfl⟩⟩
  · cases h : s.toList with
    | nil =>
      exfalso
      have hnone : pyInt s = none := by
        unfold pyInt
        rw [h]
        rfl
      rw [hnone] at hs
      exact Option.noConfusion hs
    | cons c cs =>
      have h2 : s.data = c :: cs := h
      unfold paginate_query
      simp [h2, hs]
  · rfl

/-- C10 witness at `s = "00"`, `query = [1, 2, 3]`. -/
theorem claim_C10_witness :
    paginate_query [1, 2, 3] (some "00") = [1, 2, 3] ∧
    paginate_query [1, 2, 3] (some "0") = [1, 2, 3] ∧
    (∃ e, BaseQuery.paginate [1, 2, 3] (fun _ => (0 : Nat)) (some 0) none =
      Except.error e) :=
  claim_C10_page_zero_unsliced [1, 2, 3] "00" (by decide)

/-- C7 counterexample: the page value `"0"` parses as the integer 0,
yet `_paginate_query` returns the query unsliced — not the
offset/limit slice the claim prescribes for every parseable page. -/
theorem claim_C7_counterexample :
    pyInt "0" = some 0 ∧
    paginate_query (List.range 60) (some "0") = List.range 60 ∧
    paginate_query (List.range 60) (some "0") ≠
      ((List.range 60).drop (((0 : Int) - 1) * 50).toNat).take 50 := by
  refine ⟨rfl, rfl, ?_⟩
  decide

/-- C7 (amended): `_paginate_query` slices with offset `(page-1)*50`
and limit 50 for a page parseable as a nonzero integer; a non-numeric
page leaves the query unsliced; `Distro.all` and `Project.all` route
their ordered queries through it (as do `Project.search` and
`Project.updated`). -/
theorem claim_C7_amended_secondary_pagination {α : Type} (query : List α)
    (s : String) (p : Int) :
    (pyInt s = some p → p ≠ 0 →
      paginate_query query (some s) = (query.drop ((p - 1) * 50).toNat).take 50) ∧
    (pyInt s = none → paginate_query query (some s) = query) ∧
    paginate_query query none = query ∧
    (∀ db : List Distro, Distro.all db (some s) false =
      Sum.inr (paginate_query (sortByKey Distro.name db) (some s))) ∧
    (∀ db : List Project, Project.all db (some s) false =
      Sum.inr (paginate_query (sortByKey (fun q : Project => lowerStr q.name) db) (some s))) := by
  refine ⟨?_, ?_, rfl, fun db => rfl, fun db => rfl⟩
  · intro hs hp
    cases h : s.toList with
    | nil =>
      exfalso
      have hnone : pyInt s = none := by
        unfold pyInt
        rw [h]
        rfl
      rw [hnone] at hs
      exact Option.noConfusion hs
    | cons c cs =>
      have h2 : s.data = c :: cs := h
      unfold paginate_query
      simp [h2, hs, hp]
  · intro hs
    cases h : s.toList with
    | nil =>
      have h2 : s.data = [] := h
      unfold paginate_query
      simp [h2]
    | cons c cs =>
      have h2 : s.data = c :: cs := h
      unfold paginate_query
      simp [h2, hs]

/-- C7 witness at pages `"2"` (sliced) and `"abc"` (unsliced). -/
theorem claim_C7_witness :
    paginate_query (List.range 60) (some "2") =
      ((List.range 60).drop (((2 : Int) - 1) * 50).toNat).take 50 ∧
    paginate_query (List.range 60) (some "abc") = List.range 60 :=
  ⟨(claim_C7_amended_secondary_pagination (List.range 60) "2" 2).1 (by decide) (by decide),
   (claim_C7_amended_secondary_pagination (List.range 60) "abc" 2).2.1 (by decide)⟩

/-- Splitting a list into `n` chunks of size `m` at offsets `m * i` and
concatenating them in order restores the list, provided `n` chunks
cover it. -/
theorem flatten_range_chunks {α : Type} (m : Nat) :
    ∀ (n : Nat) (xs : List α), xs.length ≤ n * m →
      ((List.range n).map (fun i => (xs.drop (m * i)).take m)).flatten = xs := by
  intro n
  induction n with
  | zero =>
    intro xs h
    simp only [Nat.zero_mul, Nat.le_zero] at h
    simp [List.length_eq_zero.mp h]
  | succ n ih =>
    intro xs h
    rw [List.range_succ_eq_map, List.map_cons, List.flatten_cons, List.map_map]
    have e1 : (fun i => (xs.drop (m * i)).take m) ∘ Nat.succ =
        fun i => ((xs.drop m).drop (m * i)).take m := by
      funext i
      simp only [Function.comp_apply]
      rw [List.drop_drop]
      have : m * Nat.succ i = m + m * i := by
        rw [Nat.succ_eq_add_one]
        ring
      rw [this]
    have hlen : (xs.drop m).length ≤ n * m := by
      rw [List.length_drop]
      rw [Nat.succ_mul] at h
      omega
    rw [e1, ih (xs.drop m) hlen, Nat.mul_zero, List.drop_zero, List.take_append_drop]

/-- C4: for `page ≥ 1` and `items_per_page ≥ 1`, `BaseQuery.paginate`
returns the slice of the ordered results at offset
`items_per_page * (page - 1)` of length at most `items_per_page`,
together with the page number, the page size and the total count; and
concatenating all pages in order reproduces the full ordered result. -/
theorem claim_C4_paginate_page_partition {α β : Type} [LinearOrder β]
    (xs : List α) (key : α → β) (page ipp : Int) (hp : 1 ≤ page) (hi : 1 ≤ ipp) :
    BaseQuery.paginate xs key (some page) (some ipp) =
      Except.ok ⟨((sortByKey key xs).drop (ipp * (page - 1)).toNat).take ipp.toNat,
        page, ipp, (sortByKey key xs).length⟩ ∧
    (sortByKey key xs).length = xs.length ∧
    ∀ n : Nat, xs.length ≤ n * ipp.toNat →
      ((List.range n).map (fun i : Nat =>
        pageItems (BaseQuery.paginate xs key (some ((i : Int) + 1)) (some ipp)))).flatten =
        sortByKey key xs := by
  have hp' : ¬ page < 1 := by omega
  have hi' : ¬ ipp < 1 := by omega
  have hpag : ∀ pg : Int, 1 ≤ pg →
      BaseQuery.paginate xs key (some pg) (some ipp) =
        Except.ok ⟨((sortByKey key xs).drop (ipp * (pg - 1)).toNat).take ipp.toNat,
          pg, ipp, (sortByKey key xs).length⟩ := by
    intro pg hpg
    have hpg' : ¬ pg < 1 := by omega
    unfold BaseQuery.paginate
    simp [hpg', hi']
  refine ⟨hpag page hp, (perm_sortByKey key xs).length_eq, ?_⟩
  intro n hn
  have hmi : ∀ i : Nat, (ipp * ((i : Int) + 1 - 1)).toNat = ipp.toNat * i := by
    intro i
    have hip : (ipp : Int) = (ipp.toNat : Int) := (Int.toNat_of_nonneg (by omega)).symm
    rw [show ((i : Int) + 1 - 1) = (i : Int) by ring, hip]
    rw [show ((ipp.toNat : Int) * (i : Int)) = ((ipp.toNat * i : Nat) : Int) by push_cast; ring]
    exact Int.toNat_natCast _
  have hmap : (fun i : Nat =>
      pageItems (BaseQuery.paginate xs key (some ((i : Int) + 1)) (some ipp))) =
      fun i : Nat => ((sortByKey key xs).drop (ipp.toNat * i)).take ipp.toNat := by
    funext i
    rw [hpag ((i : Int) + 1) (by omega)]
    unfold pageItems
    rw [hmi i]
  rw [hmap]
  exact flatten_range_chunks ipp.toNat n (sortByKey key xs)
    (by rw [(perm_sortByKey key xs).length_eq]; exact hn)

/-- C4 witness: three items, two pages of size two. -/
theorem claim_C4_witness :
    BaseQuery.paginate [3, 1, 2] (fun x : Nat => x) (some 1) (some 2) =
      Except.ok ⟨[1, 2], 1, 2, 3⟩ ∧
    ((List.range 2).map (fun i : Nat =>
      pageItems (BaseQuery.paginate [3, 1, 2] (fun x : Nat => x)
        (some ((i : Int) + 1)) (some 2)))).flatten = [1, 2, 3] := by
  have h := claim_C4_paginate_page_partition [3, 1, 2] (fun x : Nat => x) 1 2
    (by decide) (by decide)
  constructor
  · rw [h.1]
    rfl
  · rw [h.2.2 2 (by decide)]
    rfl

/-- C1: `get_version_class` resolves the scheme in strict precedence
order — the project's own truthy `version_scheme`; else the ecosystem
plugin's default when the project has a truthy `ecosystem_name`; else
the backend plugin's default; else the global default — and looks the
resolved name up in the version registry, where an unknown name
surfaces as an error. -/
theorem claim_C1_version_scheme_precedence (reg : PluginRegistries) (p : Project) :
    (pyTruthy p.version_scheme = true →
      Project.get_version_class reg p =
        VERSION_PLUGINS_get_plugin reg (p.version_scheme.getD "")) ∧
    (pyTruthy p.version_scheme = false → pyTruthy p.ecosystem_name = true →
      ∀ eco, reg.ecosystem (p.ecosystem_name.getD "") = some eco →
        pyTruthy eco.default_version_scheme = true →
        Project.get_version_class reg p =
          VERSION_PLUGINS_get_plugin reg (eco.default_version_scheme.getD "")) ∧
    (pyTruthy p.version_scheme = false → pyTruthy p.ecosystem_name = false →
      pyTruthy p.backend = true →
      ∀ bk, reg.backend (p.backend.getD "") = some bk →
        pyTruthy bk.default_version_scheme = true →
        Project.get_version_class reg p =
          VERSION_PLUGINS_get_plugin reg (bk.default_version_scheme.getD "")) ∧
    (pyTruthy p.version_scheme = false → pyTruthy p.ecosystem_name = false →
      pyTruthy p.backend = false →
      Project.get_version_class reg p =
        VERSION_PLUGINS_get_plugin reg DEFAULT_VERSION_SCHEME) ∧
    (∀ s, p.version_scheme = some s → pyTruthy p.version_scheme = true →
      reg.version s = none →
      Project.get_version_class reg p = Except.error ("UnknownScheme: " ++ s)) := by
  refine ⟨?_, ?_, ?_, ?_, ?_⟩
  · intro h1
    unfold Project.get_version_class
    simp [h1, bind, Except.bind, pure, Except.pure]
  · intro h1 h2 eco heco h3
    unfold Project.get_version_class
    simp [h1, h2, heco, h3, bind, Except.bind, pure, Except.pure]
  · intro h1 h2 h3 bk hbk h4
    unfold Project.get_version_class
    simp [h1, h2, h3, hbk, h4, bind, Except.bind, pure, Except.pure]
  · intro h1 h2 h3
    unfold Project.get_version_class
    simp [h1, h2, h3, bind, Except.bind, pure, Except.pure]
  · intro s hs h1 hreg
    have h1' : pyTruthy (some s) = true := by
      rw [hs] at h1
      exact h1
    unfold Project.get_version_class
    simp [hs, h1', hreg, bind, Except.bind, pure, Except.pure,
      VERSION_PLUGINS_get_plugin]

/-- C1 witness against `regFix`: each precedence level and the
unknown-scheme error, on concrete projects. -/
theorem claim_C1_witness :
    Project.get_version_class regFix
      ⟨1, "a", "h", some "custom", some "pypi", some "semver", none, none⟩ =
      Except.ok ⟨"semver"⟩ ∧
    Project.get_version_class regFix
      ⟨2, "b", "h", some "custom", some "pypi", none, none, none⟩ =
      Except.ok ⟨"pep440"⟩ ∧
    Project.get_version_class regFix
      ⟨3, "c", "h", some "custom", none, none, none, none⟩ =
      Except.ok ⟨"date"⟩ ∧
    Project.get_version_class regFix
      ⟨4, "d", "h", none, none, none, none, none⟩ =
      Except.ok ⟨DEFAULT_VERSION_SCHEME⟩ ∧
    Project.get_version_class regFix
      ⟨5, "e", "h", some "custom", none, some "unknown", none, none⟩ =
      Except.error ("UnknownScheme: " ++ "unknown") := by
  refine ⟨?_, ?_, ?_, ?_, ?_⟩
  · rw [(claim_C1_version_scheme_precedence regFix
      ⟨1, "a", "h", some "custom", some "pypi", some "semver", none, none⟩).1 rfl]
    rfl
  · rw [(claim_C1_version_scheme_precedence regFix
      ⟨2, "b", "h", some "custom", some "pypi", none, none, none⟩).2.1 rfl rfl
      ⟨some "pep440"⟩ rfl rfl]
    rfl
  · rw [(claim_C1_version_scheme_precedence regFix
      ⟨3, "c", "h", some "custom", none, none, none, none⟩).2.2.1 rfl rfl rfl
      ⟨some "date"⟩ rfl rfl]
    rfl
  · rw [(claim_C1_version_scheme_precedence regFix
      ⟨4, "d", "h", none, none, none, none, none⟩).2.2.2.1 rfl rfl rfl]
    rfl
  · exact (claim_C1_version_scheme_precedence regFix
      ⟨5, "e", "h", some "custom", none, some "unknown", none, none⟩).2.2.2.2
      "unknown" rfl rfl rfl

/-- A tokenized pattern consisting of a single `%` matches every
string. -/
theorem likeMatchT_percent_nil (s : List Char) :
    likeMatchT [LikeTok.percent] s = true := by
  unfold likeMatchT
  rw [List.any_eq_true]
  refine ⟨[], ?_, rfl⟩
  rw [List.mem_tails]
  exact List.nil_suffix

/-- A tokenized pattern of literals followed by a single `%` matches
exactly the strings beginning with those characters. -/
theorem likeMatchT_lit_percent :
    ∀ (cs s : List Char),
      (likeMatchT (cs.map LikeTok.lit ++ [LikeTok.percent]) s = true ↔ cs <+: s)
  | [], s => by
    simp only [List.map_nil, List.nil_append, likeMatchT_percent_nil s,
      List.nil_prefix]
  | c :: cs, s => by
    cases s with
    | nil => simp [likeMatchT]
    | cons x xs =>
      simp only [List.map_cons, List.cons_append, likeMatchT,
        Bool.and_eq_true, beq_iff_eq, List.cons_prefix_cons, List.append_eq]
      rw [likeMatchT_lit_percent cs xs]
      exact and_congr_left (fun _ => eq_comm)

/-- The `odd` filter pattern matches a log exactly when the log begins,
case-insensitively, with "Something strange occured". -/
theorem ilike_oddPattern (s : String) :
    ilike s oddPattern = true ↔ startsWithCI s "Something strange occured" := by
  unfold ilike startsWithCI likeMatchL
  have e1 : likeToks (lowerStr oddPattern).toList =
      "something strange occured".toList.map LikeTok.lit ++ [LikeTok.percent] := by
    decide
  have e2 : (lowerStr "Something strange occured").toList =
      "something strange occured".toList := by decide
  rw [e1, e2]
  exact likeMatchT_lit_percent "something strange occured".toList _

/-- C2 counterexample: a project with non-null, non-sentinel logs and a
null `latest_version` is returned by both the `failed` and the
`never_updated` buckets, so the buckets are not mutually exclusive. -/
theorem claim_C2_counterexample :
    Project.updated [⟨1, "p", "h", some "custom", none, none, none, some "boom"⟩]
      "failed" none none none false =
      Sum.inr [⟨1, "p", "h", some "custom", none, none, none, some "boom"⟩] ∧
    Project.updated [⟨1, "p", "h", some "custom", none, none, none, some "boom"⟩]
      "never_updated" none none none false =
      Sum.inr [⟨1, "p", "h", some "custom", none, none, none, some "boom"⟩] :=
  ⟨rfl, rfl⟩

/-- C2 (amended): each status of `Project.updated` returns exactly the
projects described — `updated`: logs equal to the sentinel; `failed`:
non-null, non-sentinel logs not beginning (case-insensitively) with
"Something strange occured"; `odd`: such logs that do begin with it;
`new`: null logs; `never_updated`: non-null, non-sentinel logs and null
`latest_version`.  The buckets are not mutually exclusive:
`never_updated` overlaps `failed` and `odd`. -/
theorem claim_C2_amended_classification (db : List Project) (p : Project) :
    (p ∈ rows (Project.updated db "updated" none none none false) ↔
      p ∈ db ∧ p.logs = some successSentinel) ∧
    (p ∈ rows (Project.updated db "failed" none none none false) ↔
      p ∈ db ∧ ∃ s, p.logs = some s ∧ s ≠ successSentinel ∧
        ¬ startsWithCI s "Something strange occured") ∧
    (p ∈ rows (Project.updated db "odd" none none none false) ↔
      p ∈ db ∧ ∃ s, p.logs = some s ∧ s ≠ successSentinel ∧
        startsWithCI s "Something strange occured") ∧
    (p ∈ rows (Project.updated db "new" none none none false) ↔
      p ∈ db ∧ p.logs = none) ∧
    (p ∈ rows (Project.updated db "never_updated" none none none false) ↔
      p ∈ db ∧ (∃ s, p.logs = some s ∧ s ≠ successSentinel) ∧
        p.latest_version = none) := by
  refine ⟨?_, ?_, ?_, ?_, ?_⟩
  · rw [show Project.updated db "updated" none none none false =
        Sum.inr ((sortByKey (fun q : Project => lowerStr q.name) db).filter
          (fun q => q.logs.isSome && q.logs == some successSentinel)) from rfl]
    simp only [rows, List.mem_filter, mem_sortByKey, Bool.and_eq_true, beq_iff_eq,
      Option.isSome_iff_exists]
    cases hl : p.logs with
    | none => simp [hl]
    | some s => simp [hl]
  · rw [show Project.updated db "failed" none none none false =
        Sum.inr ((sortByKey (fun q : Project => lowerStr q.name) db).filter
          (fun q => q.logs.isSome && q.logs != some successSentinel &&
            !(ilike (q.logs.getD "") oddPattern))) from rfl]
    simp only [rows, List.mem_filter, mem_sortByKey, Bool.and_eq_true, bne_iff_ne,
      Bool.not_eq_true', Option.isSome_iff_exists]
    cases hl : p.logs with
    | none => simp [hl]
    | some s =>
      simp [hl, ← ilike_oddPattern, and_assoc]
  · rw [show Project.updated db "odd" none none none false =
        Sum.inr ((sortByKey (fun q : Project => lowerStr q.name) db).filter
          (fun q => q.logs.isSome && q.logs != some successSentinel &&
            ilike (q.logs.getD "") oddPattern)) from rfl]
    simp only [rows, List.mem_filter, mem_sortByKey, Bool.and_eq_true, bne_iff_ne,
      Option.isSome_iff_exists]
    cases hl : p.logs with
    | none => simp [hl]
    | some s =>
      simp [hl, ← ilike_oddPattern, and_assoc]
  · rw [show Project.updated db "new" none none none false =
        Sum.inr ((sortByKey (fun q : Project => lowerStr q.name) db).filter
          (fun q => q.logs.isNone)) from rfl]
    simp only [rows, List.mem_filter, mem_sortByKey, Option.isNone_iff_eq_none]
  · rw [show Project.updated db "never_updated" none none none false =
        Sum.inr ((sortByKey (fun q : Project => lowerStr q.name) db).filter
          (fun q => q.logs.isSome && q.logs != some successSentinel &&
            q.latest_version.isNone)) from rfl]
    simp only [rows, List.mem_filter, mem_sortByKey, Bool.and_eq_true, bne_iff_ne,
      Option.isSome_iff_exists, Option.isNone_iff_eq_none]
    cases hl : p.logs with
    | none => simp [hl]
    | some s => simp [hl, and_assoc]

/-- Mapping each element to a non-empty list preserves
(non-)emptiness under `flatMap`. -/
theorem isEmpty_flatMap (f : Char → List Char) (hf : ∀ x, f x ≠ []) (l : List Char) :
    (l.flatMap f).isEmpty = l.isEmpty := by
  cases l with
  | nil => rfl
  | cons c cs =>
    simp only [List.flatMap_cons]
    cases hfc : f c with
    | nil => exact absurd hfc (hf c)
    | cons y ys => simp

/-- The `Project.search` pattern translation maps empty patterns to
empty patterns and non-empty ones to non-empty ones. -/
theorem searchTranslate_isEmpty (pattern : String) :
    (searchTranslate pattern).toList.isEmpty = pattern.toList.isEmpty := by
  simp only [searchTranslate, pyReplaceChar, apply_ite String.toList]
  split
  · show ((pattern.toList.flatMap fun x => if x = '_' then ['\\', '_'] else [x]).flatMap
      fun x => if x = '*' then ['%'] else [x]).isEmpty = pattern.toList.isEmpty
    rw [isEmpty_flatMap _ (fun x => by split <;> simp),
      isEmpty_flatMap _ (fun x => by split <;> simp)]
  · show (pattern.toList.flatMap fun x => if x = '_' then ['\\', '_'] else [x]).isEmpty
      = pattern.toList.isEmpty
    rw [isEmpty_flatMap _ (fun x => by split <;> simp)]

/-- C3 counterexample: `Distro.search` does not escape underscores and
has no exact-equality branch: the wildcard-free pattern `"a_c"` is
still pattern-matched, so it returns the distro `"abc"`, which the
claimed exact-equality comparison would reject. -/
theorem claim_C3_counterexample :
    Distro.search [⟨"abc"⟩] "a_c" none false = Sum.inr [⟨"abc"⟩] ∧
    ("abc" : String) ≠ "a_c" :=
  ⟨rfl, by decide⟩

/-- C3 (amended): `Project.search` escapes underscores and translates
`*` to `%`, then compares names (or package names) by exact equality
when the translated pattern has no `%` and case-insensitively by
pattern otherwise; `Distro.search` only translates `*` to `%`, without
escaping underscores, and always applies a case-insensitive pattern
match, wildcard-free patterns included. -/
theorem claim_C3_amended_search_translation (projects : List Project)
    (packages : List Packages) (distros : List Distro) (pattern : String)
    (p : Project) (d : Distro) :
    (pattern.toList.isEmpty = false →
      (searchTranslate pattern).toList.contains '%' = true →
      (p ∈ rows (Project.search projects packages pattern none none false) ↔
        p ∈ projects ∧ (ilike p.name (searchTranslate pattern) = true ∨
          ∃ k ∈ packages, k.project_id = p.id ∧
            ilike k.package_name (searchTranslate pattern) = true))) ∧
    (pattern.toList.isEmpty = false →
      (searchTranslate pattern).toList.contains '%' = false →
      (p ∈ rows (Project.search projects packages pattern none none false) ↔
        p ∈ projects ∧ (p.name = searchTranslate pattern ∨
          ∃ k ∈ packages, k.project_id = p.id ∧
            k.package_name = searchTranslate pattern))) ∧
    (d ∈ rows (Distro.search distros pattern none false) ↔
      d ∈ distros ∧ ilike d.name
        (if pattern.toList.contains '*' then pyReplaceChar pattern '*' ['%']
         else pattern) = true) := by
  refine ⟨?_, ?_, ?_⟩
  · intro hne hpct
    have hne2 : (searchTranslate pattern).toList.isEmpty = false := by
      rw [searchTranslate_isEmpty]
      exact hne
    simp at hne hne2 hpct
    unfold Project.search
    simp [hne, hne2, hpct, rows, paginate_query,
      List.mem_dedup, List.mem_append, mem_sortByKey, List.mem_insertionSort,
      List.mem_filter, List.any_eq_true, Bool.and_eq_true, beq_iff_eq]
    constructor
    · rintro (⟨hdb, hn⟩ | ⟨hdb, k, hk, hid, hcond⟩)
      · exact ⟨hdb, Or.inl hn⟩
      · exact ⟨hdb, Or.inr ⟨k, hk, hid.symm, hcond⟩⟩
    · rintro ⟨hdb, hn | ⟨k, hk, hid, hcond⟩⟩
      · exact Or.inl ⟨hdb, hn⟩
      · exact Or.inr ⟨hdb, k, hk, hid.symm, hcond⟩
  · intro hne hpct
    have hne2 : (searchTranslate pattern).toList.isEmpty = false := by
      rw [searchTranslate_isEmpty]
      exact hne
    simp at hne hne2 hpct
    unfold Project.search
    simp [hne, hne2, hpct, rows, paginate_query,
      List.mem_dedup, List.mem_append, mem_sortByKey, List.mem_insertionSort,
      List.mem_filter, List.any_eq_true, Bool.and_eq_true, beq_iff_eq]
    constructor
    · rintro (⟨hdb, hn⟩ | ⟨hdb, k, hk, hid, hcond⟩)
      · exact ⟨hdb, Or.inl hn⟩
      · exact ⟨hdb, Or.inr ⟨k, hk, hid.symm, hcond⟩⟩
    · rintro ⟨hdb, hn | ⟨k, hk, hid, hcond⟩⟩
      · exact Or.inl ⟨hdb, hn⟩
      · exact Or.inr ⟨hdb, k, hk, hid.symm, hcond⟩
  · unfold Distro.search
    simp [rows, paginate_query, List.mem_dedup, mem_sortByKey,
      List.mem_insertionSort, List.mem_filter]

/-- C3 witness: a wildcard pattern and an exact pattern against
`Project.search`, and a wildcard pattern against `Distro.search`. -/
theorem claim_C3_witness :
    (⟨10, "foobar", "h", some "custom", none, none, none, none⟩ : Project) ∈
      rows (Project.search
        [⟨10, "foobar", "h", some "custom", none, none, none, none⟩] []
        "foo*" none none false) ∧
    (⟨11, "plain", "h", some "custom", none, none, none, none⟩ : Project) ∈
      rows (Project.search
        [⟨11, "plain", "h", some "custom", none, none, none, none⟩] []
        "plain" none none false) ∧
    (⟨"Fedora"⟩ : Distro) ∈ rows (Distro.search [⟨"Fedora"⟩] "fed*" none false) := by
  refine ⟨?_, ?_, ?_⟩
  · exact ((claim_C3_amended_search_translation
      [⟨10, "foobar", "h", some "custom", none, none, none, none⟩] [] []
      "foo*" ⟨10, "foobar", "h", some "custom", none, none, none, none⟩
      ⟨"x"⟩).1 (by decide) (by decide)).mpr
      ⟨List.mem_singleton.mpr rfl, Or.inl (by decide)⟩
  · exact ((claim_C3_amended_search_translation
      [⟨11, "plain", "h", some "custom", none, none, none, none⟩] [] []
      "plain" ⟨11, "plain", "h", some "custom", none, none, none, none⟩
      ⟨"x"⟩).2.1 (by decide) (by decide)).mpr
      ⟨List.mem_singleton.mpr rfl, Or.inl (by decide)⟩
  · exact ((claim_C3_amended_search_translation [] [] [⟨"Fedora"⟩]
      "fed*" ⟨0, "", "", none, none, none, none, none⟩ ⟨"Fedora"⟩).2.2).mpr
      ⟨List.mem_singleton.mpr rfl, by decide⟩

/-- C8 counterexample: `ProjectFlag.all` returns flags oldest-first
(`created_on` ascending), not newest-first, and ignores `count=True`
(it returns the rows, not a count). -/
theorem claim_C8_counterexample :
    ProjectFlag.all
      [⟨1, 1, "r", "u", "open", 5, 5⟩, ⟨2, 1, "r", "u", "open", 9, 9⟩] none false =
      Sum.inr [⟨1, 1, "r", "u", "open", 5, 5⟩, ⟨2, 1, "r", "u", "open", 9, 9⟩] ∧
    ProjectFlag.all
      [⟨2, 1, "r", "u", "open", 9, 9⟩, ⟨1, 1, "r", "u", "open", 5, 5⟩] none true =
      Sum.inr [⟨1, 1, "r", "u", "open", 5, 5⟩, ⟨2, 1, "r", "u", "open", 9, 9⟩] ∧
    (⟨1, 1, "r", "u", "open", 5, 5⟩ : ProjectFlag) ≠ ⟨2, 1, "r", "u", "open", 9, 9⟩ :=
  ⟨rfl, rfl, by decide⟩

/-- C8 (amended): `ProjectFlag.search` filters by project name,
creation-date lower bound, user and state, returns flags
newest-created-first, and offers count-only mode and offset/limit
slicing; `ProjectFlag.all`, however, ignores its `page` and `count`
arguments and returns all flags ordered oldest-first. -/
theorem claim_C8_amended_flag_listing (flags : List ProjectFlag)
    (projects : List Project) (pn : Option String) (fd : Option Nat)
    (u st : Option String) (f : ProjectFlag) (pg : Option String) (cnt : Bool) :
    List.Sorted (fun a b : ProjectFlag => b.created_on ≤ a.created_on)
      (rows (ProjectFlag.search flags projects pn fd u st none none false)) ∧
    (f ∈ rows (ProjectFlag.search flags projects pn fd u st none none false) ↔
      f ∈ flags ∧
        (pyTruthy pn = true →
          ∃ pr ∈ projects, f.project_id = pr.id ∧ pr.name = pn.getD "") ∧
        (∀ d, fd = some d → d ≤ f.created_on) ∧
        (pyTruthy u = true → f.user = u.getD "") ∧
        (pyTruthy st = true → f.state = st.getD "")) ∧
    (∀ l o : Option Nat,
      ProjectFlag.search flags projects pn fd u st l o true =
        Sum.inl (rows (ProjectFlag.search flags projects pn fd u st
          none none false)).length) ∧
    (∀ o l : Nat, o ≠ 0 → l ≠ 0 →
      ProjectFlag.search flags projects pn fd u st (some l) (some o) false =
        Sum.inr (((rows (ProjectFlag.search flags projects pn fd u st
          none none false)).drop o).take l)) ∧
    (ProjectFlag.all flags pg cnt = ProjectFlag.all flags none false ∧
      List.Sorted (fun a b : ProjectFlag => a.created_on ≤ b.created_on)
        (rows (ProjectFlag.all flags pg cnt)) ∧
      (f ∈ rows (ProjectFlag.all flags pg cnt) ↔ f ∈ flags)) := by
  refine ⟨?_, ?_, fun l o => rfl, ?_, rfl, ?_, ?_⟩
  · obtain ⟨q, hq⟩ : ∃ q, ProjectFlag.search flags projects pn fd u st none none false =
        Sum.inr (sortByKeyDesc ProjectFlag.created_on q) := ⟨_, rfl⟩
    rw [hq]
    exact sorted_sortByKeyDesc _ _
  · unfold ProjectFlag.search
    rcases fd with _ | d <;>
      by_cases hpn : pyTruthy pn = true <;>
      by_cases hu : pyTruthy u = true <;>
      by_cases hst : pyTruthy st = true <;>
      simp [hpn, hu, hst, rows, mem_sortByKeyDesc, List.mem_insertionSort,
        List.mem_filter, Bool.and_eq_true, beq_iff_eq, List.any_eq_true,
        and_assoc] <;>
      tauto
  · intro o l ho hl
    unfold ProjectFlag.search
    simp [rows, ho, hl]
  · show List.Sorted _ (sortByKey ProjectFlag.created_on flags)
    exact sorted_sortByKey _ _
  · show f ∈ sortByKey ProjectFlag.created_on flags ↔ f ∈ flags
    exact mem_sortByKey _ _ _

/-- C8 witness: offset/limit slicing of a two-flag listing. -/
theorem claim_C8_witness :
    ProjectFlag.search
      [⟨1, 1, "r", "u", "open", 5, 5⟩, ⟨2, 1, "r", "u", "open", 9, 9⟩] []
      none none none none (some 1) (some 1) false =
      Sum.inr [⟨1, 1, "r", "u", "open", 5, 5⟩] := by
  have h := (claim_C8_amended_flag_listing
    [⟨1, 1, "r", "u", "open", 5, 5⟩, ⟨2, 1, "r", "u", "open", 9, 9⟩] []
    none none none none ⟨1, 1, "r", "u", "open", 5, 5⟩ none false).2.2.2.1 1 1
    (by decide) (by decide)
  rw [h]
  rfl

/-- Each hexadecimal digit value below 16 maps to a character that
round-trips through `hexVal`, is a hexadecimal digit, is not a hyphen,
and is a lowercase digit (`0`-`9` or `a`-`f`). -/
theorem hexChar_spec : ∀ d : Nat, d < 16 →
    hexVal (hexChar d) = d ∧ isHexDigitChar (hexChar d) = true ∧
    hexChar d ≠ '-' ∧
    ((hexChar d).isDigit = true ∨ ('a' ≤ hexChar d ∧ hexChar d ≤ 'f')) := by
  decide

/-- `toHexAux` always produces exactly `k` digits. -/
theorem toHexAux_length (n k : Nat) : (toHexAux n k).length = k := by
  induction k generalizing n with
  | zero => rfl
  | succ k ih => simp [toHexAux, ih]

/-- Every character of `toHexAux` is a `hexChar` of a value below 16. -/
theorem toHexAux_mem (n k : Nat) : ∀ c ∈ toHexAux n k, ∃ d, d < 16 ∧ c = hexChar d := by
  induction k generalizing n with
  | zero =>
    intro c hc
    cases hc
  | succ k ih =>
    intro c hc
    simp only [toHexAux, List.mem_append, List.mem_singleton] at hc
    rcases hc with hc | hc
    · exact ih (n / 16) c hc
    · exact ⟨n % 16, Nat.mod_lt _ (by norm_num), hc⟩

/-- Appending one digit multiplies the accumulated value by the base. -/
theorem ofHexDigits_append_single (l : List Char) (c : Char) :
    ofHexDigits (l ++ [c]) = 16 * ofHexDigits l + hexVal c := by
  unfold ofHexDigits
  rw [List.foldl_append]
  rfl

/-- Reading back the `k` hex digits of `n` recovers `n % 16 ^ k`. -/
theorem ofHexDigits_toHexAux (k : Nat) : ∀ n : Nat, ofHexDigits (toHexAux n k) = n % 16 ^ k := by
  induction k with
  | zero =>
    intro n
    simp [toHexAux, ofHexDigits, Nat.mod_one]
  | succ k ih =>
    intro n
    rw [toHexAux, ofHexDigits_append_single, ih (n / 16),
      (hexChar_spec (n % 16) (Nat.mod_lt _ (by norm_num))).1,
      show (16 : Nat) ^ (k + 1) = 16 * 16 ^ k by ring, Nat.mod_mul]
    ring

/-- The encoded form is literally the digit list of `toHexAux`. -/
theorem toHex32_toList (n : Nat) : (toHex32 n).toList = toHexAux n 32 := rfl

/-- The hyphenated string form, as a character list. -/
theorem uuidStr_toList (n : Nat) : (uuidStr n).toList =
    (toHexAux n 32).take 8 ++ ['-'] ++ ((toHexAux n 32).drop 8).take 4 ++ ['-'] ++
    ((toHexAux n 32).drop 12).take 4 ++ ['-'] ++ ((toHexAux n 32).drop 16).take 4 ++
    ['-'] ++ (toHexAux n 32).drop 20 := rfl

/-- `uuid.UUID` recovers `n` from any string whose non-hyphen
characters are exactly the 32 hex digits of `n`. -/
theorem uuidParse_eq_of_filter (s : String) (n : Nat) (hn : n < 2 ^ 128)
    (hf : s.toList.filter (fun c => decide (c ≠ '-')) = toHexAux n 32) :
    uuidParse s = some n := by
  unfold uuidParse
  show (if ((s.toList.filter (fun c => decide (c ≠ '-'))).length == 32 &&
      (s.toList.filter (fun c => decide (c ≠ '-'))).all isHexDigitChar) = true
    then some (ofHexDigits (s.toList.filter (fun c => decide (c ≠ '-'))))
    else none) = some n
  rw [hf]
  have hlen : ((toHexAux n 32).length == 32) = true := by
    rw [toHexAux_length]
    rfl
  have hall : (toHexAux n 32).all isHexDigitChar = true := by
    rw [List.all_eq_true]
    intro c hc
    obtain ⟨d, hd, rfl⟩ := toHexAux_mem n 32 c hc
    exact (hexChar_spec d hd).2.1
  rw [hlen, hall]
  show some (ofHexDigits (toHexAux n 32)) = some n
  rw [ofHexDigits_toHexAux 32 n, Nat.mod_eq_of_lt]
  calc n < 2 ^ 128 := hn
    _ = 16 ^ 32 := by norm_num

/-- Decoding the 32-digit encoded form recovers the value. -/
theorem uuidParse_toHex32 (n : Nat) (hn : n < 2 ^ 128) :
    uuidParse (toHex32 n) = some n := by
  apply uuidParse_eq_of_filter _ _ hn
  rw [toHex32_toList, List.filter_eq_self]
  intro a ha
  obtain ⟨d, hd, rfl⟩ := toHexAux_mem n 32 a ha
  simp [(hexChar_spec d hd).2.2.1]

/-- Reassembling the 8-4-4-4-12 segments of a list restores it. -/
theorem take_drop_partition (l : List Char) :
    l.take 8 ++ (l.drop 8).take 4 ++ (l.drop 12).take 4 ++ (l.drop 16).take 4 ++
      l.drop 20 = l := by
  have e1 : l.drop 20 = (l.drop 16).drop 4 := by
    rw [List.drop_drop]
  have e2 : l.drop 16 = (l.drop 12).drop 4 := by
    rw [List.drop_drop]
  have e3 : l.drop 12 = (l.drop 8).drop 4 := by
    rw [List.drop_drop]
  rw [List.append_assoc, List.append_assoc, List.append_assoc, e1,
    List.take_append_drop 4 (l.drop 16), e2, List.take_append_drop 4 (l.drop 12),
    e3, List.take_append_drop 4 (l.drop 8), List.take_append_drop 8 l]

/-- Stripping the hyphens of the `str(uuid)` form leaves exactly the 32
hex digits. -/
theorem uuidStr_filter (n : Nat) :
    (uuidStr n).toList.filter (fun c => decide (c ≠ '-')) = toHexAux n 32 := by
  have hseg : ∀ l : List Char, (∀ c ∈ l, ∃ d, d < 16 ∧ c = hexChar d) →
      l.filter (fun c => decide (c ≠ '-')) = l := by
    intro l hl
    rw [List.filter_eq_self]
    intro a ha
    obtain ⟨d, hd, rfl⟩ := hl a ha
    simp [(hexChar_spec d hd).2.2.1]
  have hx := toHexAux_mem n 32
  rw [uuidStr_toList]
  simp only [List.filter_append,
    hseg _ (fun c hc => hx c (List.mem_of_mem_take hc)),
    hseg _ (fun c hc => hx c (List.mem_of_mem_drop (List.mem_of_mem_take hc))),
    hseg _ (fun c hc => hx c (List.mem_of_mem_drop hc)),
    show (['-'] : List Char).filter (fun c => decide (c ≠ '-')) = [] from rfl,
    List.append_nil]
  exact take_drop_partition (toHexAux n 32)

/-- Decoding the hyphenated string form recovers the value. -/
theorem uuidParse_uuidStr (n : Nat) (hn : n < 2 ^ 128) :
    uuidParse (uuidStr n) = some n :=
  uuidParse_eq_of_filter _ _ hn (uuidStr_filter n)

/-- One-step reduction of the result-value processor on a present
value. -/
theorem process_result_value_some (s : String) :
    GUID.process_result_value (some s) =
      match uuidParse s with
      | some n => Except.ok (some n)
      | none => Except.error "ValueError" := rfl

/-- One-step reduction of the bind processor on a structured UUID on a
non-PostgreSQL dialect. -/
theorem process_bind_param_uuid (n : Nat) (dialect : String)
    (hd : (dialect == "postgresql") = false) :
    GUID.process_bind_param (some (UuidValue.uuid n)) dialect =
      Except.ok (some (toHex32 n)) := by
  unfold GUID.process_bind_param
  rw [hd]
  rfl

/-- One-step reduction of the bind processor on a string value on a
non-PostgreSQL dialect. -/
theorem process_bind_param_str (s : String) (dialect : String)
    (hd : (dialect == "postgresql") = false) :
    GUID.process_bind_param (some (UuidValue.str s)) dialect =
      match uuidParse s with
      | some n => Except.ok (some (toHex32 n))
      | none => Except.error "ValueError" := by
  unfold GUID.process_bind_param
  rw [hd]
  rfl

/-- C6: on a non-PostgreSQL dialect the identity type encodes any value
below `2 ^ 128` — supplied as a structured UUID or as its hyphenated
string form — as the same 32-character lowercase no-hyphen hex string,
and decoding returns the original value; on PostgreSQL the value also
round-trips through its `str` form. -/
theorem claim_C6_guid_round_trip (n : Nat) (dialect : String)
    (hn : n < 2 ^ 128) (hd : dialect ≠ "postgresql") :
    (toHex32 n).toList.length = 32 ∧
    (∀ c ∈ (toHex32 n).toList, c ≠ '-' ∧
      (c.isDigit = true ∨ ('a' ≤ c ∧ c ≤ 'f'))) ∧
    GUID.process_bind_param (some (UuidValue.uuid n)) dialect =
      Except.ok (some (toHex32 n)) ∧
    GUID.process_bind_param (some (UuidValue.str (uuidStr n))) dialect =
      Except.ok (some (toHex32 n)) ∧
    GUID.process_result_value (some (toHex32 n)) = Except.ok (some n) ∧
    GUID.process_bind_param (some (UuidValue.uuid n)) "postgresql" =
      Except.ok (some (uuidStr n)) ∧
    GUID.process_result_value (some (uuidStr n)) = Except.ok (some n) := by
  have hdb : (dialect == "postgresql") = false := by
    simp [hd]
  refine ⟨?_, ?_, ?_, ?_, ?_, rfl, ?_⟩
  · rw [toHex32_toList]
    exact toHexAux_length n 32
  · rw [toHex32_toList]
    intro c hc
    obtain ⟨d, hdlt, rfl⟩ := toHexAux_mem n 32 c hc
    exact ⟨(hexChar_spec d hdlt).2.2.1, (hexChar_spec d hdlt).2.2.2⟩
  · exact process_bind_param_uuid n dialect hdb
  · rw [process_bind_param_str (uuidStr n) dialect hdb, uuidParse_uuidStr n hn]
  · rw [process_result_value_some, uuidParse_toHex32 n hn]
  · rw [process_result_value_some, uuidParse_uuidStr n hn]

/-- C6 witness at the value 255 and the SQLite dialect. -/
theorem claim_C6_witness :
    GUID.process_bind_param (some (UuidValue.uuid 255)) "sqlite" =
      Except.ok (some (toHex32 255)) ∧
    GUID.process_bind_param (some (UuidValue.str (uuidStr 255))) "sqlite" =
      Except.ok (some (toHex32 255)) ∧
    GUID.process_result_value (some (toHex32 255)) = Except.ok (some 255) ∧
    GUID.process_result_value (some (uuidStr 255)) = Except.ok (some 255) := by
  have h := claim_C6_guid_round_trip 255 "sqlite" (by decide) (by decide)
  exact ⟨h.2.2.1, h.2.2.2.1, h.2.2.2.2.1, h.2.2.2.2.2.2⟩

/-- C2 witness: a project with sentinel logs is in the `updated`
bucket. -/
theorem claim_C2_witness :
    (⟨1, "p", "h", some "custom", none, none, some "1.0", some successSentinel⟩ :
      Project) ∈ rows (Project.updated
        [⟨1, "p", "h", some "custom", none, none, some "1.0", some successSentinel⟩]
        "updated" none none none false) :=
  (claim_C2_amended_classification
    [⟨1, "p", "h", some "custom", none, none, some "1.0", some successSentinel⟩]
    ⟨1, "p", "h", some "custom", none, none, some "1.0", some successSentinel⟩).1.mpr
    ⟨List.mem_singleton.mpr rfl, rfl⟩

/-- C5 witness: page 0 fails, omitted arguments succeed with the
defaults. -/
theorem claim_C5_witness :
    (∃ e, BaseQuery.paginate [1, 2, 3] (fun x : Nat => x) (some 0) (some 25) =
      Except.error e) ∧
    (∃ pg, BaseQuery.paginate [1, 2, 3] (fun x : Nat => x) none none =
      Except.ok pg ∧ pg.page = 1 ∧ pg.items_per_page = 25) := by
  have h := claim_C5_paginate_invalid_argument [1, 2, 3] (fun x : Nat => x) 0 25
  exact ⟨h.1.mpr (Or.inl (by norm_num)), h.2.2.2⟩

/-- C9 witness: a concrete count query is unchanged by offset and
limit. -/
theorem claim_C9_witness :
    Log.search [⟨1, "u", none, none, "d", 3⟩] none none none (some 1) (some 5) true =
      Log.search [⟨1, "u", none, none, "d", 3⟩] none none none none none true :=
  (claim_C9_count_ignores_slicing [⟨1, "u", none, none, "d", 3⟩] [] []
    none none none none none (some 1) (some 5) none none).1

end Anitya
